import Mathlib

/-!
# Verification of the niconico tag monitor (`monitor_niconico.py`)

Shallow embedding of the tag-change detection and notification state machine
of `src/monitor_niconico.py`.  Python `set[str]` values are represented by
canonical lists: sorted (by the code-point order on strings) and without
duplicates, built with `mkSet`.  All definitions are executable.
-/

namespace NicoMonitor

/-! ## String utilities (Python `str.strip` and `str.split(",")`) -/

/-- Whitespace characters removed by Python's `str.strip()` (the ones that
occur in practice in this program's inputs). -/
def isSpaceChar (c : Char) : Bool :=
  c = ' ' || c = '\t' || c = '\n' || c = '\r' || c = '\x0b' || c = '\x0c'

/-- Trim leading and trailing whitespace from a character list. -/
def trimChars (l : List Char) : List Char :=
  ((l.dropWhile isSpaceChar).reverse.dropWhile isSpaceChar).reverse

/-- Python `s.strip()`. -/
def strip (s : String) : String := ⟨trimChars s.data⟩

/-- Split a character list on `,` (Python `s.split(",")`). -/
def splitCommaAux : List Char → List Char → List (List Char)
  | [], acc => [acc.reverse]
  | c :: cs, acc =>
      if c = ',' then acc.reverse :: splitCommaAux cs []
      else splitCommaAux cs (c :: acc)

/-- Python `s.split(",")`. -/
def splitComma (s : String) : List String :=
  (splitCommaAux s.data []).map (fun l => ⟨l⟩)

/-! ## Canonical set representation for Python `set[str]` -/

/-- Lexicographic code-point order on character lists (the order Python's
`sorted` uses on strings, and the order of Lean's `String` instance). -/
def charsLt : List Char → List Char → Bool
  | [], [] => false
  | [], _ :: _ => true
  | _ :: _, [] => false
  | a :: as, b :: bs =>
      if a.toNat < b.toNat then true
      else if b.toNat < a.toNat then false
      else charsLt as bs

/-- Strict order on strings by code points. -/
def strLt (s t : String) : Bool := charsLt s.data t.data

/-- Insert a string into a sorted duplicate-free list, keeping it sorted and
duplicate-free. -/
def insertSorted (x : String) : List String → List String
  | [] => [x]
  | y :: ys =>
      if x = y then y :: ys
      else if strLt x y then x :: y :: ys
      else y :: insertSorted x ys

/-- Canonicalise a list of strings into the sorted duplicate-free list that
represents the Python set of its elements. -/
def mkSet (l : List String) : List String := l.foldr insertSorted []

/-- Python set difference `a - b` on canonical representatives. -/
def setDiff (a b : List String) : List String :=
  a.filter (fun t => !b.contains t)

/-! ## Data model -/

/-- Metadata returned by `fetch_tags` alongside the tag set. -/
structure Meta where
  url : String
  title : Option String
deriving DecidableEq, Repr

/-- One persisted per-video snapshot (a value of the state JSON object).
`last_missing_required = none` models the key being absent from the dict. -/
structure StateEntry where
  tags : List String
  title : Option String
  last_checked : Int
  last_missing_required : Option (List String)
deriving DecidableEq, Repr

/-- The persisted state: a Python dict from video id to snapshot, modelled as
an association list in insertion order with unique keys. -/
abbrev StateMap := List (String × StateEntry)

/-- Python `state.get(vid)`: first entry with the given key. -/
def lookupState (st : StateMap) (vid : String) : Option StateEntry :=
  (st.find? (fun p => p.1 = vid)).map Prod.snd

/-- Python `state[vid] = e`: replace the entry in place if the key exists,
otherwise append (dict insertion-order semantics). -/
def insertState : StateMap → String → StateEntry → StateMap
  | [], vid, e => [(vid, e)]
  | p :: st, vid, e =>
      if p.1 = vid then (vid, e) :: st
      else p :: insertState st vid e

/-! ## Configuration parsing -/

/-- `parse_required_tags`: read a comma-separated value, strip each item,
drop empties; the result is a Python set (canonical list here).  Empty or
all-whitespace input yields the empty set. -/
def parse_required_tags (raw : String) : List String :=
  if strip raw = "" then []
  else mkSet (((splitComma raw).map strip).filter (fun t => !(t = "")))

/-- The video-id list parsed from `--videos` or `VIDEOS`:
`[v.strip() for v in s.split(",") if v.strip()]` (a list, not a set). -/
def parseVideoList (s : String) : List String :=
  ((splitComma s).map strip).filter (fun t => !(t = ""))

/-- Python truthiness of an optional string (`None` and `""` are falsy). -/
def truthy : Option String → Bool
  | none => false
  | some s => !(s = "")

/-- Lines 168-174 of `main`: `--videos` if truthy, else `VIDEOS` if truthy,
else no configuration (`none`, which makes `main` return 2 immediately). -/
def resolveVideos (arg env : Option String) : Option (List String) :=
  if truthy arg then some (parseVideoList (arg.getD ""))
  else if truthy env then some (parseVideoList (env.getD ""))
  else none

/-! ## Change detection (lines 181-227 of `main`) -/

/-- Lines 185-186: `prev - now_tags if prev else set()` where
`prev = set(state.get(vid, {}).get("tags", []))`. -/
def removedDiff (st : StateMap) (vid : String) (now_tags : List String) :
    List String :=
  let prev := mkSet (((lookupState st vid).map StateEntry.tags).getD [])
  if prev.isEmpty then [] else setDiff prev now_tags

/-- Line 198: `required - now_tags` (callers guard on `required` non-empty). -/
def missingDiff (required now_tags : List String) : List String :=
  setDiff required now_tags

/-- Lines 194-198: the `missing_required` variable — initialised to `set()`
and set to `required - now_tags` only under `if required:`. -/
def missingRequiredVar (required now_tags : List String) : List String :=
  if required.isEmpty then [] else missingDiff required now_tags

/-- Line 201: `set(state.get(vid, {}).get("last_missing_required", []))`. -/
def prevMissing (st : StateMap) (vid : String) : List String :=
  mkSet (((lookupState st vid).bind StateEntry.last_missing_required).getD [])

/-- Observable outcome of one iteration of the per-video loop body. -/
structure StepOut where
  state : StateMap
  saved : Bool
  removalNotified : Bool
  missingNotified : Bool
  recoveredLogged : Bool
  raised : Bool
deriving DecidableEq, Repr

/-- One iteration of the loop body of `main` (lines 181-227) for video `vid`.
`fetchRes` is the outcome of `fetch_tags(vid)` (the fetcher is an external
collaborator): an exception, or a raw tag list (made a set with `mkSet`)
plus metadata.  `now` is `int(time.time())` for this iteration. -/
def stepVideo (required : List String) (vid : String)
    (fetchRes : Except Unit (List String × Meta)) (now : Int)
    (st : StateMap) : StepOut :=
  match fetchRes with
  | .error _ =>
      { state := st, saved := false, removalNotified := false,
        missingNotified := false, recoveredLogged := false, raised := true }
  | .ok (rawTags, meta) =>
      let now_tags := mkSet rawTags
      let removed := removedDiff st vid now_tags
      let missing := missingRequiredVar required now_tags
      let newEntry : StateEntry :=
        { tags := now_tags
          title := meta.title
          last_checked := now
          last_missing_required :=
            if required.isEmpty then
              (lookupState st vid).bind StateEntry.last_missing_required
            else some missing }
      { state := insertState st vid newEntry
        saved := true
        removalNotified := !removed.isEmpty
        missingNotified :=
          if required.isEmpty then false
          else if missing = prevMissing st vid then false
          else !missing.isEmpty
        recoveredLogged :=
          if required.isEmpty then false
          else if missing = prevMissing st vid then false
          else missing.isEmpty
        raised := false }

/-! ## Notification delivery (`notify_discord`, `notify_teams`, lines 110-128,
and the call sites `notify_discord(msg) or notify_teams(msg)`) -/

/-- The notification environment: configured webhook URLs and, for each, the
outcome an HTTP POST to it would have (`true` = a 2xx status and no
exception; `false` = non-2xx status or a transport error, which the code
catches and turns into `False`). -/
structure NotifyEnv where
  discord_url : Option String
  teams_url : Option String
  discord_post_ok : Bool
  teams_post_ok : Bool
deriving DecidableEq, Repr

/-- `notify_discord`: `False` when no URL is configured, otherwise the POST
outcome; transport errors are caught and reported as `False`. -/
def notify_discord (env : NotifyEnv) : Bool :=
  match env.discord_url with
  | none => false
  | some _ => env.discord_post_ok

/-- `notify_teams`, same shape as `notify_discord`. -/
def notify_teams (env : NotifyEnv) : Bool :=
  match env.teams_url with
  | none => false
  | some _ => env.teams_post_ok

/-- Observable outcome of evaluating `notify_discord(msg) or notify_teams(msg)`:
the boolean `sent`, and whether an HTTP POST was attempted at each endpoint. -/
structure SendOut where
  sent : Bool
  discordAttempted : Bool
  teamsAttempted : Bool
deriving DecidableEq, Repr

/-- The call sites (lines 189 and 205): Python `or` evaluates
`notify_discord(msg)` first and calls `notify_teams(msg)` only when that
returned `False` (short-circuit).  A POST is attempted at an endpoint
exactly when its function runs with a configured URL. -/
def sendNotification (env : NotifyEnv) : SendOut :=
  let d := notify_discord env
  if d then
    { sent := true, discordAttempted := env.discord_url.isSome,
      teamsAttempted := false }
  else
    { sent := notify_teams env, discordAttempted := env.discord_url.isSome,
      teamsAttempted := env.teams_url.isSome }

/-! ## The run loop and `main` (lines 162-229) -/

/-- The state file as `main` sees it through `load_state`/`save_state`:
absent, present but malformed (reading it raises), or present with a JSON
object that decodes to a state mapping. -/
abbrev StateFile := Option (Except Unit StateMap)

/-- Effect of one loop iteration on the file: `save_state` (line 220) runs
only on the success path. -/
def fileAfterStep (out : StepOut) (f : StateFile) : StateFile :=
  if out.saved then some (Except.ok out.state) else f

/-- Accumulated observables of the `for vid in video_ids` loop. -/
structure LoopOut where
  steps : List (String × StepOut)
  state : StateMap
  file : StateFile
  code : Nat
deriving Repr

/-- The `for vid in video_ids` loop (lines 180-227): each iteration runs
`stepVideo`, saves the state on success, and an exception sets
`exit_code = 2` without stopping the loop. -/
def runLoop (required : List String)
    (fetch : String → Except Unit (List String × Meta)) (now : Int) :
    List String → StateMap → StateFile → Nat → LoopOut
  | [], st, f, code => ⟨[], st, f, code⟩
  | v :: vs, st, f, code =>
      let out := stepVideo required v (fetch v) now st
      let f' := fileAfterStep out f
      let code' := if out.raised then 2 else code
      let rest := runLoop required fetch now vs out.state f' code'
      ⟨(v, out) :: rest.steps, rest.state, rest.file, rest.code⟩

/-- `load_state` (lines 45-48) as `main` observes it: an absent file yields
the empty mapping, malformed JSON raises, otherwise the decoded mapping. -/
def loadStateFile (f : StateFile) : Except Unit StateMap :=
  match f with
  | none => Except.ok []
  | some r => r

/-- Result of a completed run of `main`. -/
structure RunOut where
  steps : List (String × StepOut)
  finalState : StateMap
  file : StateFile
  exitCode : Nat
deriving Repr

/-- `main` (lines 162-229): read `REQUIRED_TAGS` (the `requiredEnv` string,
`""` when unset), resolve the video list (returning 2 with nothing else done
when neither source is truthy), load the state (a raise here propagates:
`Except.error`), then run the loop; `exit_code` starts at 0 and each caught
per-video exception sets it to 2. -/
def mainRun (videosArg videosEnv : Option String) (requiredEnv : String)
    (fetch : String → Except Unit (List String × Meta)) (now : Int)
    (file : StateFile) : Except Unit RunOut :=
  let required := parse_required_tags requiredEnv
  match resolveVideos videosArg videosEnv with
  | none => Except.ok { steps := [], finalState := [], file := file, exitCode := 2 }
  | some vids =>
      match loadStateFile file with
      | .error e => Except.error e
      | .ok st0 =>
          let r := runLoop required fetch now vids st0 file 0
          Except.ok { steps := r.steps, finalState := r.state, file := r.file,
                      exitCode := r.code }

/-! ## JSON serialisation (`load_state`/`save_state`, lines 45-53) -/

/-- A JSON value, the image of `json.loads` on this program's state files. -/
inductive JVal where
  | null : JVal
  | str : String → JVal
  | num : Int → JVal
  | arr : List JVal → JVal
  | obj : List (String × JVal) → JVal

/-- Python `d.get(k)` on a JSON object's key-value list. -/
def jLookup (kvs : List (String × JVal)) (k : String) : Option JVal :=
  (kvs.find? (fun p => p.1 = k)).map Prod.snd

/-- `json.dumps` of one snapshot dict: the keys the program writes, in the
order the loop writes them (`last_missing_required` first when present,
cf. lines 213 and 216-219). -/
def encodeEntry (e : StateEntry) : JVal :=
  JVal.obj
    ((match e.last_missing_required with
      | none => []
      | some m => [("last_missing_required", JVal.arr (m.map JVal.str))]) ++
     [("tags", JVal.arr (e.tags.map JVal.str)),
      ("title", match e.title with | none => JVal.null | some t => JVal.str t),
      ("last_checked", JVal.num e.last_checked)])

/-- `json.dumps` of the whole state dict. -/
def encodeState (st : StateMap) : JVal :=
  JVal.obj (st.map (fun p => (p.1, encodeEntry p.2)))

/-- Read a JSON array of strings back into a list. -/
def decodeStrList : JVal → Option (List String)
  | JVal.arr xs =>
      xs.mapM (fun j => match j with | JVal.str s => some s | _ => none)
  | _ => none

/-- Read one snapshot dict back into a `StateEntry`. -/
def decodeEntry : JVal → Option StateEntry
  | JVal.obj kvs => do
      let tags ← (jLookup kvs "tags").bind decodeStrList
      let title ←
        match jLookup kvs "title" with
        | some JVal.null => some none
        | some (JVal.str t) => some (some t)
        | _ => none
      let lc ←
        match jLookup kvs "last_checked" with
        | some (JVal.num n) => some n
        | _ => none
      let lmr ←
        match jLookup kvs "last_missing_required" with
        | none => some none
        | some j => (decodeStrList j).map some
      pure { tags := tags, title := title, last_checked := lc,
             last_missing_required := lmr }
  | _ => none

/-- Read the whole state dict back into a `StateMap`. -/
def decodeState : JVal → Option StateMap
  | JVal.obj kvs =>
      kvs.mapM (fun p => (decodeEntry p.2).map (fun e => (p.1, e)))
  | _ => none

/-- `save_state` (lines 50-53): serialise and atomically replace the file.
The file afterwards holds exactly the serialised mapping. -/
def save_state (st : StateMap) : Option JVal := some (encodeState st)

/-- `load_state` (lines 45-48) at the JSON level: an absent file yields the
empty object, otherwise the parsed content. -/
def load_state (f : Option JVal) : JVal :=
  match f with
  | none => JVal.obj []
  | some j => j

/-! ## Order lemmas for the canonical set representation -/

/-- The strict-order proposition behind `strLt`. -/
abbrev sLt (a b : String) : Prop := strLt a b = true

theorem charsLt_irrefl : ∀ l : List Char, charsLt l l = false
  | [] => rfl
  | c :: cs => by
      simp only [charsLt, lt_irrefl, if_false]
      exact charsLt_irrefl cs

theorem charsLt_trans : ∀ a b c : List Char,
    charsLt a b = true → charsLt b c = true → charsLt a c = true := by
  intro a
  induction a with
  | nil =>
      intro b c h1 h2
      cases b with
      | nil => simp [charsLt] at h1
      | cons y ys =>
          cases c with
          | nil => simp [charsLt] at h2
          | cons z zs => simp [charsLt]
  | cons x xs ih =>
      intro b c h1 h2
      cases b with
      | nil => simp [charsLt] at h1
      | cons y ys =>
          cases c with
          | nil => simp [charsLt] at h2
          | cons z zs =>
              simp only [charsLt] at h1 h2 ⊢
              rcases Nat.lt_trichotomy x.toNat y.toNat with hxy | hxy | hxy
              · rcases Nat.lt_trichotomy y.toNat z.toNat with hyz | hyz | hyz
                · simp [Nat.lt_trans hxy hyz]
                · simp [hyz ▸ hxy]
                · rw [if_neg (by omega), if_pos hyz] at h2
                  simp at h2
              · rcases Nat.lt_trichotomy y.toNat z.toNat with hyz | hyz | hyz
                · simp [hxy ▸ hyz]
                · rw [if_neg (by omega), if_neg (by omega)] at h1
                  rw [if_neg (by omega), if_neg (by omega)] at h2
                  rw [if_neg (by omega), if_neg (by omega)]
                  exact ih ys zs h1 h2
                · rw [if_neg (by omega), if_pos hyz] at h2
                  simp at h2
              · rw [if_neg (by omega), if_pos hxy] at h1
                simp at h1

theorem charsLt_antisymm : ∀ a b : List Char,
    charsLt a b = false → charsLt b a = false → a = b := by
  intro a
  induction a with
  | nil =>
      intro b h1 _
      cases b with
      | nil => rfl
      | cons y ys => simp [charsLt] at h1
  | cons x xs ih =>
      intro b h1 h2
      cases b with
      | nil => simp [charsLt] at h2
      | cons y ys =>
          simp only [charsLt] at h1 h2
          rcases Nat.lt_trichotomy x.toNat y.toNat with hxy | hxy | hxy
          · simp [hxy] at h1
          · have hx : x = y := Char.ext (UInt32.ext hxy)
            subst hx
            simp only [lt_irrefl, if_false] at h1 h2
            exact congrArg (x :: ·) (ih ys h1 h2)
          · simp [hxy] at h2

theorem sLt_irrefl (a : String) : ¬ sLt a a := by
  simp [sLt, strLt, charsLt_irrefl]

theorem sLt_trans {a b c : String} (h1 : sLt a b) (h2 : sLt b c) : sLt a c :=
  charsLt_trans a.data b.data c.data h1 h2

theorem sLt_of_ne_of_not_lt {a b : String} (hne : ¬ a = b)
    (h : ¬ sLt a b) : sLt b a := by
  simp only [sLt, strLt, Bool.not_eq_true] at h ⊢
  cases hba : charsLt b.data a.data with
  | true => rfl
  | false =>
      exfalso
      apply hne
      cases a with
      | mk da =>
          cases b with
          | mk db => exact congrArg String.mk (charsLt_antisymm da db h hba)

theorem sLt_ne {a b : String} (h : sLt a b) : a ≠ b := by
  intro he
  exact sLt_irrefl a (he ▸ h)

/-! ## Canonicity lemmas for `mkSet` and `setDiff` -/

theorem mem_insertSorted {a x : String} :
    ∀ {l : List String}, a ∈ insertSorted x l → a = x ∨ a ∈ l := by
  intro l
  induction l with
  | nil =>
      intro h
      exact Or.inl (by simpa [insertSorted] using h)
  | cons y ys ih =>
      simp only [insertSorted]
      split
      · exact fun h => Or.inr h
      · split
        · intro h
          rcases List.mem_cons.mp h with h | h
          · exact Or.inl h
          · exact Or.inr h
        · intro h
          rcases List.mem_cons.mp h with h | h
          · exact Or.inr (h ▸ List.mem_cons_self y ys)
          · rcases ih h with h | h
            · exact Or.inl h
            · exact Or.inr (List.mem_cons_of_mem y h)

theorem pairwise_insertSorted {x : String} :
    ∀ {l : List String}, l.Pairwise sLt → (insertSorted x l).Pairwise sLt := by
  intro l
  induction l with
  | nil => exact fun _ => List.pairwise_singleton sLt x
  | cons y ys ih =>
      intro h
      simp only [insertSorted]
      split
      · exact h
      · rename_i hne
        split
        · rename_i hlt
          refine List.Pairwise.cons ?_ h
          intro z hz
          rcases List.mem_cons.mp hz with hz | hz
          · exact hz ▸ hlt
          · exact sLt_trans hlt (List.rel_of_pairwise_cons h hz)
        · rename_i hnlt
          refine List.Pairwise.cons ?_ (ih h.of_cons)
          intro z hz
          rcases mem_insertSorted hz with hz | hz
          · exact hz ▸ sLt_of_ne_of_not_lt hne (fun hc => hnlt hc)
          · exact List.rel_of_pairwise_cons h hz

theorem pairwise_mkSet : ∀ l : List String, (mkSet l).Pairwise sLt
  | [] => List.Pairwise.nil
  | _ :: l => pairwise_insertSorted (pairwise_mkSet l)

theorem insertSorted_eq_cons {x : String} :
    ∀ {l : List String}, (∀ z ∈ l, sLt x z) → insertSorted x l = x :: l := by
  intro l h
  cases l with
  | nil => rfl
  | cons y ys =>
      have hxy : sLt x y := h y (List.mem_cons_self y ys)
      show (if x = y then y :: ys
            else if strLt x y then x :: y :: ys
            else y :: insertSorted x ys) = x :: y :: ys
      rw [if_neg (sLt_ne hxy), if_pos hxy]

theorem mkSet_of_pairwise : ∀ {l : List String}, l.Pairwise sLt → mkSet l = l := by
  intro l
  induction l with
  | nil => exact fun _ => rfl
  | cons x xs ih =>
      intro h
      have : mkSet (x :: xs) = insertSorted x (mkSet xs) := rfl
      rw [this, ih h.of_cons,
        insertSorted_eq_cons (fun z hz => List.rel_of_pairwise_cons h hz)]

theorem mkSet_idem (l : List String) : mkSet (mkSet l) = mkSet l :=
  mkSet_of_pairwise (pairwise_mkSet l)

theorem pairwise_setDiff {a : List String} (b : List String)
    (h : a.Pairwise sLt) : (setDiff a b).Pairwise sLt :=
  h.filter _

theorem mkSet_setDiff {a : List String} (b : List String)
    (h : a.Pairwise sLt) : mkSet (setDiff a b) = setDiff a b :=
  mkSet_of_pairwise (pairwise_setDiff b h)

theorem pairwise_of_mkSet_eq {l : List String} (h : mkSet l = l) :
    l.Pairwise sLt := h ▸ pairwise_mkSet l

/-! ## Lookup / insert lemmas for the state mapping -/

theorem lookupState_cons (p : String × StateEntry) (st : StateMap) (vid : String) :
    lookupState (p :: st) vid =
      if p.1 = vid then some p.2 else lookupState st vid := by
  by_cases h : p.1 = vid
  · simp [lookupState, List.find?_cons_of_pos, h]
  · simp [lookupState, List.find?_cons_of_neg, h]

theorem lookupState_insertState_self (st : StateMap) (vid : String) (e : StateEntry) :
    lookupState (insertState st vid e) vid = some e := by
  induction st with
  | nil => simp [insertState, lookupState_cons]
  | cons p st ih =>
      by_cases h : p.1 = vid
      · simp [insertState, h, lookupState_cons]
      · simp [insertState, h, lookupState_cons, ih]

theorem lookupState_insertState_ne (st : StateMap) (vid w : String) (e : StateEntry)
    (hne : w ≠ vid) : lookupState (insertState st vid e) w = lookupState st w := by
  induction st with
  | nil => simp [insertState, lookupState_cons, lookupState, Ne.symm hne]
  | cons p st ih =>
      by_cases h : p.1 = vid
      · have hpw : ¬ p.1 = w := fun hc => hne (hc ▸ h ▸ rfl)
        simp [insertState, h, lookupState_cons, Ne.symm hne, hpw]
      · simp [insertState, h, lookupState_cons, ih]

/-! ## Small characterisations of the detection diffs -/

/-- The `prev` tag set an iteration reads for `vid` from the state. -/
def prevTags (st : StateMap) (vid : String) : List String :=
  mkSet (((lookupState st vid).map StateEntry.tags).getD [])

theorem removedDiff_eq (st : StateMap) (vid : String) (x : List String) :
    removedDiff st vid x = setDiff (prevTags st vid) x := by
  unfold removedDiff prevTags
  cases hp : (mkSet (((lookupState st vid).map StateEntry.tags).getD [])).isEmpty
  · simp [hp]
  · simp [hp, List.isEmpty_iff.mp hp, setDiff]

theorem missingRequiredVar_eq (required x : List String) :
    missingRequiredVar required x = setDiff required x := by
  unfold missingRequiredVar
  cases hr : required.isEmpty
  · simp [hr, missingDiff]
  · simp [hr, List.isEmpty_iff.mp hr, missingDiff, setDiff]

/-! ## Claims -/

/-- C1: for every video, the removal diff equals `previous.tags − now_tags`;
it is empty when no previous snapshot exists or the previous tag set is
empty (a first-ever check never reports a removal); and a removal
notification is attempted exactly when this diff is non-empty, on every such
run, with no deduplication (the decision reads nothing but the diff). -/
theorem removal_detection (required : List String) (vid : String)
    (raw : List String) (meta : Meta) (now : Int) (st : StateMap) :
    removedDiff st vid (mkSet raw) = setDiff (prevTags st vid) (mkSet raw) ∧
    (lookupState st vid = none → removedDiff st vid (mkSet raw) = []) ∧
    (prevTags st vid = [] → removedDiff st vid (mkSet raw) = []) ∧
    ((stepVideo required vid (Except.ok (raw, meta)) now st).removalNotified = true ↔
      removedDiff st vid (mkSet raw) ≠ []) := by
  refine ⟨removedDiff_eq st vid (mkSet raw), ?_, ?_, ?_⟩
  · intro h
    rw [removedDiff_eq]
    unfold prevTags
    rw [h]
    rfl
  · intro h
    rw [removedDiff_eq, h]
    rfl
  · show (!(removedDiff st vid (mkSet raw)).isEmpty) = true ↔ _
    simp [List.isEmpty_iff]

/-- Witness for C1 at a concrete input (first-ever check of `sm9`). -/
theorem removal_detection_witness :
    removedDiff [] "sm9" (mkSet ["A"]) = [] ∧
    removedDiff [] "sm9" (mkSet ["A"]) = [] ∧
    ((stepVideo [] "sm9" (Except.ok (["A"], ⟨"u", none⟩)) 0 []).removalNotified = true ↔
      removedDiff [] "sm9" (mkSet ["A"]) ≠ []) :=
  ⟨(removal_detection [] "sm9" ["A"] ⟨"u", none⟩ 0 []).2.1 rfl,
   (removal_detection [] "sm9" ["A"] ⟨"u", none⟩ 0 []).2.2.1 rfl,
   (removal_detection [] "sm9" ["A"] ⟨"u", none⟩ 0 []).2.2.2⟩

/-- C2: the missing-required diff equals `required − now_tags`; when the
required set is empty the diff is always empty, no missing-required
notification is attempted, and the `last_missing_required` field of the
state is left untouched. -/
theorem missing_required_empty (required : List String) (vid : String)
    (raw : List String) (meta : Meta) (now : Int) (st : StateMap) :
    missingRequiredVar required (mkSet raw) = setDiff required (mkSet raw) ∧
    (required = [] →
      missingRequiredVar required (mkSet raw) = [] ∧
      (stepVideo required vid (Except.ok (raw, meta)) now st).missingNotified = false ∧
      (lookupState (stepVideo required vid (Except.ok (raw, meta)) now st).state
          vid).bind StateEntry.last_missing_required =
        (lookupState st vid).bind StateEntry.last_missing_required) := by
  refine ⟨missingRequiredVar_eq required (mkSet raw), ?_⟩
  intro h
  subst h
  refine ⟨rfl, rfl, ?_⟩
  rw [show (stepVideo [] vid (Except.ok (raw, meta)) now st).state =
      insertState st vid _ from rfl]
  rw [lookupState_insertState_self]
  rfl

/-- Witness for C2 at a concrete input (empty required set). -/
theorem missing_required_empty_witness :
    missingRequiredVar [] (mkSet ["A"]) = [] ∧
    (stepVideo [] "sm9" (Except.ok (["A"], ⟨"u", none⟩)) 0
        [("sm9", ⟨["A"], none, 0, some ["X"]⟩)]).missingNotified = false ∧
    (lookupState (stepVideo [] "sm9" (Except.ok (["A"], ⟨"u", none⟩)) 0
        [("sm9", ⟨["A"], none, 0, some ["X"]⟩)]).state "sm9").bind
      StateEntry.last_missing_required =
    (lookupState [("sm9", ⟨["A"], none, 0, some ["X"]⟩)] "sm9").bind
      StateEntry.last_missing_required :=
  (missing_required_empty [] "sm9" ["A"] ⟨"u", none⟩ 0
    [("sm9", ⟨["A"], none, 0, some ["X"]⟩)]).2 rfl

/-- C4: on the recovered transition (new missing set empty, persisted one
non-empty) no missing-required notification is attempted — the transition is
only logged — and the persisted `last_missing_required` is overwritten with
the empty set. -/
theorem recovered_transition (required : List String) (vid : String)
    (raw : List String) (meta : Meta) (now : Int) (st : StateMap)
    (hreq : required ≠ [])
    (hmiss : missingDiff required (mkSet raw) = [])
    (hprev : prevMissing st vid ≠ []) :
    (stepVideo required vid (Except.ok (raw, meta)) now st).missingNotified = false ∧
    (stepVideo required vid (Except.ok (raw, meta)) now st).recoveredLogged = true ∧
    (lookupState (stepVideo required vid (Except.ok (raw, meta)) now st).state
        vid).bind StateEntry.last_missing_required = some [] := by
  have hre : required.isEmpty = false := by
    simpa [List.isEmpty_iff] using hreq
  have hvar : missingRequiredVar required (mkSet raw) = [] := by
    simp [missingRequiredVar, hre, hmiss]
  have hne : ¬ missingRequiredVar required (mkSet raw) = prevMissing st vid := by
    rw [hvar]
    exact fun hc => hprev hc.symm
  refine ⟨?_, ?_, ?_⟩
  · show (if required.isEmpty then false
          else if missingRequiredVar required (mkSet raw) = prevMissing st vid
          then false else !(missingRequiredVar required (mkSet raw)).isEmpty) = false
    rw [hre, if_neg (by simp), if_neg hne, hvar]
    rfl
  · show (if required.isEmpty then false
          else if missingRequiredVar required (mkSet raw) = prevMissing st vid
          then false else (missingRequiredVar required (mkSet raw)).isEmpty) = true
    rw [hre, if_neg (by simp), if_neg hne, hvar]
    rfl
  · rw [show (stepVideo required vid (Except.ok (raw, meta)) now st).state =
        insertState st vid _ from rfl]
    rw [lookupState_insertState_self]
    show (if required.isEmpty then _ else some (missingRequiredVar required (mkSet raw))) = _
    rw [hre, if_neg (by simp), hvar]

/-- Witness for C4 at a concrete input (`required = {"X"}`, tags recover). -/
theorem recovered_transition_witness :
    (stepVideo ["X"] "sm9" (Except.ok (["X"], ⟨"u", none⟩)) 7
        [("sm9", ⟨[], none, 0, some ["X"]⟩)]).missingNotified = false ∧
    (stepVideo ["X"] "sm9" (Except.ok (["X"], ⟨"u", none⟩)) 7
        [("sm9", ⟨[], none, 0, some ["X"]⟩)]).recoveredLogged = true ∧
    (lookupState (stepVideo ["X"] "sm9" (Except.ok (["X"], ⟨"u", none⟩)) 7
        [("sm9", ⟨[], none, 0, some ["X"]⟩)]).state "sm9").bind
      StateEntry.last_missing_required = some [] :=
  recovered_transition ["X"] "sm9" ["X"] ⟨"u", none⟩ 7
    [("sm9", ⟨[], none, 0, some ["X"]⟩)]
    (by decide) (by decide) (by decide)

/-- C9: if fetching a video's tags raises, the iteration performs no state
mutation and no save: the in-memory state is untouched (hence every entry's
fields are what they were) and the state file is not rewritten. -/
theorem fetch_error_frame (required : List String) (vid : String) (now : Int)
    (st : StateMap) (e : Unit) :
    (stepVideo required vid (Except.error e) now st).state = st ∧
    (stepVideo required vid (Except.error e) now st).saved = false ∧
    (stepVideo required vid (Except.error e) now st).raised = true ∧
    (∀ f : StateFile, fileAfterStep (stepVideo required vid (Except.error e) now st) f = f) ∧
    (∀ w : String,
      lookupState (stepVideo required vid (Except.error e) now st).state w =
        lookupState st w) :=
  ⟨rfl, rfl, rfl, fun _ => rfl, fun _ => rfl⟩

/-- C7 (counterexample): with both webhooks configured and the Discord POST
succeeding, no POST is ever attempted at the Teams endpoint — delivery is
not attempted at each configured endpoint independently, contradicting the
claim. -/
theorem notify_independent_counterexample :
    (NotifyEnv.mk (some "https://discord.example/wh")
        (some "https://teams.example/wh") true true).teams_url.isSome = true ∧
    (sendNotification
        (NotifyEnv.mk (some "https://discord.example/wh")
          (some "https://teams.example/wh") true true)).teamsAttempted = false ∧
    (sendNotification
        (NotifyEnv.mk (some "https://discord.example/wh")
          (some "https://teams.example/wh") true true)).sent = true :=
  ⟨rfl, rfl, rfl⟩

/-- C7 (amended): `notify_discord(msg) or notify_teams(msg)` attempts the
Discord endpoint first (a POST happens there exactly when a Discord URL is
configured); the Teams endpoint is attempted only when the Discord call did
not report success (short-circuit `or`); each call catches its own transport
errors and reports a boolean without raising (they are total functions into
`Bool` here); and the overall success signal still equals the logical OR of
the two per-endpoint results. -/
theorem notify_shortcircuit (env : NotifyEnv) :
    (sendNotification env).sent = (notify_discord env || notify_teams env) ∧
    (sendNotification env).discordAttempted = env.discord_url.isSome ∧
    (sendNotification env).teamsAttempted =
      (!notify_discord env && env.teams_url.isSome) := by
  cases hd : notify_discord env
  · simp [sendNotification, hd]
  · simp [sendNotification, hd]

/-- C3: with a non-empty required set, a missing-required notification is
attempted iff the computed missing set is non-empty and differs from the
persisted `last_missing_required` of the prior run; consequently a second
detection right after the first, with identical fetched tags and the same
required set, attempts no notification (dedup idempotence). -/
theorem missing_dedup (required : List String) (vid : String) (raw : List String)
    (meta : Meta) (now now' : Int) (st : StateMap)
    (hreq : required ≠ []) (hc : mkSet required = required) :
    ((stepVideo required vid (Except.ok (raw, meta)) now st).missingNotified = true ↔
      (missingDiff required (mkSet raw) ≠ [] ∧
       missingDiff required (mkSet raw) ≠ prevMissing st vid)) ∧
    (stepVideo required vid (Except.ok (raw, meta)) now'
        (stepVideo required vid (Except.ok (raw, meta)) now st).state).missingNotified
      = false := by
  have hre : required.isEmpty = false := by
    simpa [List.isEmpty_iff] using hreq
  have hvar : missingRequiredVar required (mkSet raw) = missingDiff required (mkSet raw) := by
    simp [missingRequiredVar, hre]
  constructor
  · show (if required.isEmpty then false
          else if missingRequiredVar required (mkSet raw) = prevMissing st vid
          then false else !(missingRequiredVar required (mkSet raw)).isEmpty) = true ↔ _
    rw [hre, if_neg (by simp), hvar]
    by_cases he : missingDiff required (mkSet raw) = prevMissing st vid
    · simp [he]
    · simp [he, List.isEmpty_iff]
  · have hcanon : mkSet (missingDiff required (mkSet raw)) =
        missingDiff required (mkSet raw) :=
      mkSet_setDiff (mkSet raw) (pairwise_of_mkSet_eq hc)
    have hstate : (stepVideo required vid (Except.ok (raw, meta)) now st).state =
        insertState st vid
          { tags := mkSet raw, title := meta.title, last_checked := now,
            last_missing_required :=
              if required.isEmpty then
                (lookupState st vid).bind StateEntry.last_missing_required
              else some (missingRequiredVar required (mkSet raw)) } := rfl
    have hprev2 : prevMissing
        (stepVideo required vid (Except.ok (raw, meta)) now st).state vid =
        missingDiff required (mkSet raw) := by
      unfold prevMissing
      rw [hstate, lookupState_insertState_self]
      show mkSet ((if required.isEmpty then
          (lookupState st vid).bind StateEntry.last_missing_required
        else some (missingRequiredVar required (mkSet raw))).getD []) = _
      rw [hre, if_neg (by simp)]
      show mkSet (missingRequiredVar required (mkSet raw)) = _
      rw [hvar, hcanon]
    show (if required.isEmpty then false
          else if missingRequiredVar required (mkSet raw) =
              prevMissing (stepVideo required vid (Except.ok (raw, meta)) now st).state vid
          then false
          else !(missingRequiredVar required (mkSet raw)).isEmpty) = false
    rw [hre, if_neg (by simp), hprev2, hvar, if_pos rfl]

/-- Witness for C3 at a concrete input (`required = {"X","Y"}`, tags `{"X"}`,
first run notifies, immediate second run does not). -/
theorem missing_dedup_witness :
    ((stepVideo ["X", "Y"] "sm9" (Except.ok (["X"], ⟨"u", none⟩)) 1 []).missingNotified
        = true ↔
      (missingDiff ["X", "Y"] (mkSet ["X"]) ≠ [] ∧
       missingDiff ["X", "Y"] (mkSet ["X"]) ≠ prevMissing [] "sm9")) ∧
    (stepVideo ["X", "Y"] "sm9" (Except.ok (["X"], ⟨"u", none⟩)) 2
        (stepVideo ["X", "Y"] "sm9" (Except.ok (["X"], ⟨"u", none⟩)) 1 []).state).missingNotified
      = false :=
  missing_dedup ["X", "Y"] "sm9" ["X"] ⟨"u", none⟩ 1 2 []
    (by decide) (by decide)

/-- C5: after a successful iteration the persisted entry for the video holds
the fetched tag set, the fetched title and the current time;
`last_missing_required` is set to the newly computed missing set exactly
when the required set is non-empty and is otherwise untouched; entries of
all other videos are unchanged. -/
theorem state_snapshot (required : List String) (vid : String) (raw : List String)
    (meta : Meta) (now : Int) (st : StateMap) :
    lookupState (stepVideo required vid (Except.ok (raw, meta)) now st).state vid =
      some { tags := mkSet raw, title := meta.title, last_checked := now,
             last_missing_required :=
               if required = [] then
                 (lookupState st vid).bind StateEntry.last_missing_required
               else some (missingDiff required (mkSet raw)) } ∧
    ∀ w, w ≠ vid →
      lookupState (stepVideo required vid (Except.ok (raw, meta)) now st).state w =
        lookupState st w := by
  have hstate : (stepVideo required vid (Except.ok (raw, meta)) now st).state =
      insertState st vid
        { tags := mkSet raw, title := meta.title, last_checked := now,
          last_missing_required :=
            if required.isEmpty then
              (lookupState st vid).bind StateEntry.last_missing_required
            else some (missingRequiredVar required (mkSet raw)) } := rfl
  constructor
  · rw [hstate, lookupState_insertState_self]
    cases hr : required with
    | nil => rfl
    | cons a l =>
        have : (a :: l).isEmpty = false := rfl
        simp only [this, if_false, if_neg (by simp : ¬ (a :: l) = [])]
        rw [show missingRequiredVar (a :: l) (mkSet raw) =
            missingDiff (a :: l) (mkSet raw) from by
          simp [missingRequiredVar]]
        rfl
  · intro w hw
    rw [hstate, lookupState_insertState_ne st vid w _ hw]

/-- Witness for C5 at a concrete input (another video's entry untouched). -/
theorem state_snapshot_witness :
    lookupState (stepVideo ["X"] "sm9" (Except.ok (["B", "A"], ⟨"u", some "T"⟩)) 9
        [("sm1", ⟨["C"], none, 3, none⟩)]).state "sm9" =
      some { tags := mkSet ["B", "A"], title := some "T", last_checked := 9,
             last_missing_required :=
               if (["X"] : List String) = [] then
                 (lookupState [("sm1", ⟨["C"], none, 3, none⟩)] "sm9").bind
                   StateEntry.last_missing_required
               else some (missingDiff ["X"] (mkSet ["B", "A"])) } ∧
    lookupState (stepVideo ["X"] "sm9" (Except.ok (["B", "A"], ⟨"u", some "T"⟩)) 9
        [("sm1", ⟨["C"], none, 3, none⟩)]).state "sm1" =
      lookupState [("sm1", ⟨["C"], none, 3, none⟩)] "sm1" :=
  ⟨(state_snapshot ["X"] "sm9" ["B", "A"] ⟨"u", some "T"⟩ 9
      [("sm1", ⟨["C"], none, 3, none⟩)]).1,
   (state_snapshot ["X"] "sm9" ["B", "A"] ⟨"u", some "T"⟩ 9
      [("sm1", ⟨["C"], none, 3, none⟩)]).2 "sm1" (by decide)⟩

/-! ## Run-loop lemmas -/

theorem exit_code_merge (b c : Bool) (code : Nat) :
    (if c = true then 2 else if b = true then 2 else code) =
      (if (b || c) = true then 2 else code) := by
  cases b
  · cases c
    · rfl
    · rfl
  · cases c
    · rfl
    · rfl

theorem runLoop_spec (required : List String)
    (fetch : String → Except Unit (List String × Meta)) (now : Int) :
    ∀ (vids : List String) (st : StateMap) (f : StateFile) (code : Nat),
      (runLoop required fetch now vids st f code).steps.map Prod.fst = vids ∧
      (runLoop required fetch now vids st f code).code =
        (if (runLoop required fetch now vids st f code).steps.any
            (fun p => p.2.raised) then 2 else code) := by
  intro vids
  induction vids with
  | nil => intro st f code; exact ⟨rfl, rfl⟩
  | cons v vs ih =>
      intro st f code
      obtain ⟨ih1, ih2⟩ := ih (stepVideo required v (fetch v) now st).state
        (fileAfterStep (stepVideo required v (fetch v) now st) f)
        (if (stepVideo required v (fetch v) now st).raised then 2 else code)
      constructor
      · show v :: (runLoop required fetch now vs
            (stepVideo required v (fetch v) now st).state
            (fileAfterStep (stepVideo required v (fetch v) now st) f)
            (if (stepVideo required v (fetch v) now st).raised then 2
             else code)).steps.map Prod.fst = v :: vs
        rw [ih1]
      · show (runLoop required fetch now vs
            (stepVideo required v (fetch v) now st).state
            (fileAfterStep (stepVideo required v (fetch v) now st) f)
            (if (stepVideo required v (fetch v) now st).raised then 2
             else code)).code =
          (if ((stepVideo required v (fetch v) now st).raised ||
              (runLoop required fetch now vs
                (stepVideo required v (fetch v) now st).state
                (fileAfterStep (stepVideo required v (fetch v) now st) f)
                (if (stepVideo required v (fetch v) now st).raised then 2
                 else code)).steps.any (fun p => p.2.raised)) then 2 else code)
        rw [ih2]
        exact exit_code_merge (stepVideo required v (fetch v) now st).raised
          ((runLoop required fetch now vs
            (stepVideo required v (fetch v) now st).state
            (fileAfterStep (stepVideo required v (fetch v) now st) f)
            (if (stepVideo required v (fetch v) now st).raised then 2
             else code)).steps.any (fun p => p.2.raised)) code

/-- C6 (counterexample): with `--videos ","` the provided string is truthy
but contains no video identifiers; the run performs no iteration and exits
with status 0, not 2 — so "exit 2 when no video identifiers are configured"
fails as stated. -/
theorem exit_code_counterexample :
    resolveVideos (some ",") none = some [] ∧
    mainRun (some ",") none "" (fun _ => Except.error ()) 0 none =
      Except.ok { steps := [], finalState := [], file := none, exitCode := 0 } :=
  ⟨rfl, rfl⟩

/-- C6 (amended): the exit status is 0 when every video in the resolved list
is processed without an exception — including when a provided `--videos` or
`VIDEOS` string resolves to zero identifiers (e.g. `","`) — and 2 when
neither `--videos` nor `VIDEOS` is a non-empty string (then nothing is
fetched) or when at least one video's iteration raised; an exception in one
iteration does not prevent the remaining videos from being processed (every
resolved video gets an iteration). -/
theorem exit_code_spec (args env : Option String) (reqEnv : String)
    (fetch : String → Except Unit (List String × Meta)) (now : Int)
    (st : StateMap) :
    ∃ ro : RunOut,
      mainRun args env reqEnv fetch now (some (Except.ok st)) = Except.ok ro ∧
      (resolveVideos args env = none → ro.exitCode = 2 ∧ ro.steps = []) ∧
      (∀ vids, resolveVideos args env = some vids →
        ro.steps.map Prod.fst = vids ∧
        ro.exitCode =
          (if ro.steps.any (fun p => p.2.raised) then 2 else 0)) := by
  unfold mainRun
  cases hv : resolveVideos args env with
  | none =>
      refine ⟨_, rfl, fun _ => ⟨rfl, rfl⟩, ?_⟩
      intro vids hvids
      exact absurd hvids (by simp)
  | some vids =>
      refine ⟨_, rfl, fun h => absurd h (by simp), ?_⟩
      intro vids' hvids'
      obtain rfl : vids = vids' := by
        simpa using hvids'
      exact runLoop_spec (parse_required_tags reqEnv) fetch now vids st
        (some (Except.ok st)) 0

/-- Witness for C6 (amended) at a concrete input: one video that raises and
one that succeeds; both are processed and the exit code follows the raise. -/
theorem exit_code_spec_witness :
    ∃ ro : RunOut,
      mainRun (some "sm1,sm2") none ""
        (fun v => if v = "sm1" then Except.error ()
                  else Except.ok (["A"], ⟨"u", none⟩)) 0
        (some (Except.ok [])) = Except.ok ro ∧
      ro.steps.map Prod.fst = ["sm1", "sm2"] ∧
      ro.exitCode = (if ro.steps.any (fun p => p.2.raised) then 2 else 0) := by
  obtain ⟨ro, h1, _, h3⟩ := exit_code_spec (some "sm1,sm2") none ""
    (fun v => if v = "sm1" then Except.error ()
              else Except.ok (["A"], ⟨"u", none⟩)) 0 []
  obtain ⟨h4, h5⟩ := h3 ["sm1", "sm2"] (by decide)
  exact ⟨ro, h1, h4, h5⟩

/-- C10: if the state file exists but is malformed, `json.loads` raises and
the exception propagates out of `main` (no exit status 0 or 2 is produced);
the result does not depend on the fetcher, so no video is fetched and no
state is written.  The video list must have resolved, since `main` returns 2
before touching the state file when it has not. -/
theorem malformed_state_aborts (args env : Option String) (reqEnv : String)
    (fetch : String → Except Unit (List String × Meta)) (now : Int)
    (h : resolveVideos args env ≠ none) :
    mainRun args env reqEnv fetch now (some (Except.error ())) =
      Except.error () := by
  unfold mainRun
  cases hv : resolveVideos args env with
  | none => exact absurd hv h
  | some vids => rfl

/-- Witness for C10 at a concrete input. -/
theorem malformed_state_aborts_witness :
    resolveVideos (some "sm9") none ≠ none ∧
    mainRun (some "sm9") none "" (fun _ => Except.ok (["A"], ⟨"u", none⟩)) 0
        (some (Except.error ())) = Except.error () :=
  ⟨by decide,
   malformed_state_aborts (some "sm9") none ""
     (fun _ => Except.ok (["A"], ⟨"u", none⟩)) 0 (by decide)⟩

/-! ## Serialisation round trip -/

theorem decodeStrList_encode : ∀ l : List String,
    decodeStrList (JVal.arr (l.map JVal.str)) = some l := by
  intro l
  induction l with
  | nil => rfl
  | cons s rest ih =>
      simp only [decodeStrList, List.map_cons, List.mapM_cons] at ih ⊢
      rw [ih]
      rfl

theorem decodeEntry_encode (e : StateEntry) :
    decodeEntry (encodeEntry e) = some e := by
  obtain ⟨tags, title, lc, lmr⟩ := e
  cases title with
  | none =>
      cases lmr with
      | none => simp [decodeEntry, encodeEntry, jLookup, decodeStrList_encode]
      | some m => simp [decodeEntry, encodeEntry, jLookup, decodeStrList_encode]
  | some t =>
      cases lmr with
      | none => simp [decodeEntry, encodeEntry, jLookup, decodeStrList_encode]
      | some m => simp [decodeEntry, encodeEntry, jLookup, decodeStrList_encode]

theorem decodeState_encode : ∀ st : StateMap,
    decodeState (encodeState st) = some st := by
  intro st
  induction st with
  | nil => rfl
  | cons p rest ih =>
      simp only [decodeState, encodeState, List.map_cons, List.mapM_cons] at ih ⊢
      rw [ih, decodeEntry_encode]
      rfl

/-- C8: saving a state mapping and loading it back yields the same mapping
(the JSON tree written by `save_state` decodes to exactly the saved
mapping); loading when no file exists yields the empty mapping. -/
theorem state_file_roundtrip (st : StateMap) :
    decodeState (load_state (save_state st)) = some st ∧
    decodeState (load_state none) = some ([] : StateMap) :=
  ⟨decodeState_encode st, rfl⟩

end NicoMonitor
